import Mathlib

/-!
# 11plus-web2: the quiz runner of `app.js`

A shallow embedding of the quiz session logic of `src/app.js`: the Fisher–Yates
`shuffle`, `setupQuiz`, the countdown of `startTimer`, the `nextBtn.onclick`
handler and the statistics built by `showResult`.

Modelling conventions.

* JavaScript arrays are lists.  The sparse array `answers` is a list of optional
  option indices (`none` is a hole / `undefined`).
* JavaScript objects used as dictionaries (`subjectTotalCounts`, ...) are
  association lists keyed by strings, kept in insertion order.  Only own
  properties are modelled: for a key that names a member of `Object.prototype`
  (`constructor`, `toString`, `__proto__`, ...) the source reads the inherited
  member instead.  Such keys are listed in `objectPrototypeKeys`, and a statement
  that depends on them carries the hypothesis `ordinaryKeys`.
* `Math.random()` is an oracle: `rand i` is the value of
  `Math.floor(Math.random() * (i + 1))` in the loop iteration with index `i`.
* The numeric text inputs are read through `Number(...)`; the result is either
  `NaN` or an integer (`JSNumber`).  Fractional entries are outside the model.
* `Math.round((c / t) * 100)` is computed in exact arithmetic (half rounded up);
  a zero denominator gives no finite number (`none`).  The source rounds the
  double `(c / t) * 100`, which can fall just below a tie that the exact quotient
  reaches (23 of 40 is 57 in the source and 58 here); no statement below depends
  on such a tie.
* DOM rendering is reduced to the data it displays (`ResultView`).
-/

namespace QuizApp

/-! ## Data model -/

/-- A question record of the JSON question files. -/
structure Question where
  category : String
  topic : Option String
  question : String
  options : List String
  answerIndex : Nat
  explanation : Option String
  deriving DecidableEq, Repr

/-- The value of `Number(input.value)`: `NaN` or an integer. -/
inductive JSNumber where
  | nan : JSNumber
  | int (n : Int) : JSNumber
  deriving DecidableEq, Repr

/-- The expression `x || d` for a number `x`: `NaN` and `0` are falsy. -/
def JSNumber.orDefault (x : JSNumber) (d : Int) : Int :=
  match x with
  | .nan => d
  | .int n => if n = 0 then d else n

/-! ## Utility functions -/

/-- The destructuring swap `[copy[i], copy[j]] = [copy[j], copy[i]]`.  Both reads
happen before both writes.  Indices outside the array do not occur (see
`shuffle`); the list is then returned as it is. -/
def swap {α : Type} (copy : List α) (i j : Nat) : List α :=
  match copy[i]?, copy[j]? with
  | some a, some b => (copy.set i b).set j a
  | _, _ => copy

/-- The loop `for (let i = ...; i > 0; i--)` of `shuffle`, entered with index `i`. -/
def shuffleLoop {α : Type} (rand : Nat → Nat) : Nat → List α → List α
  | 0, copy => copy
  | i + 1, copy => shuffleLoop rand i (swap copy (i + 1) (rand (i + 1)))

/-- The function `shuffle(array)`: Fisher–Yates on a copy of the array. -/
def shuffle {α : Type} (rand : Nat → Nat) (array : List α) : List α :=
  shuffleLoop rand (array.length - 1) array

/-- The call `array.slice(0, n)` for an integer `n`: a negative end counts from
the end of the array. -/
def slice0 {α : Type} (array : List α) (n : Int) : List α :=
  if n < 0 then array.take (array.length - n.natAbs) else array.take n.toNat

/-! ## JavaScript objects used as dictionaries -/

/-- The property read `obj[k]` among the own properties of `obj`; `none` is
`undefined`.  Members inherited from `Object.prototype` are not modelled (see
`objectPrototypeKeys`). -/
def get? {V : Type} (k : String) : List (String × V) → Option V
  | [] => none
  | (k', v) :: m => if k' = k then some v else get? k m

/-- The property write `obj[k] = v`: an existing key keeps its place, a new key
is added at the end. -/
def assign {V : Type} (k : String) (v : V) : List (String × V) → List (String × V)
  | [] => [(k, v)]
  | (k', v') :: m => if k' = k then (k', v) :: m else (k', v') :: assign k v m

/-- The in-place update `obj[k] = f(obj[k])` of a property that exists (`obj[k]++`,
`obj[k].total += 1`, ...).  The source always initialises the property first; on
a missing property the model leaves the object as it is. -/
def modify {V : Type} (k : String) (f : V → V) (m : List (String × V)) : List (String × V) :=
  match get? k m with
  | some v => assign k (f v) m
  | none => m

/-- The keys `Object.keys(obj)`. -/
def keys {V : Type} (m : List (String × V)) : List String :=
  m.map Prod.fst

/-- A statistics cell `{ correct, total }`. -/
structure Tally where
  correct : Nat
  total : Nat
  deriving DecidableEq, Repr

/-- The update `cell.total += 1` (also `cell.total++`). -/
def Tally.addTotal (t : Tally) : Tally :=
  { t with total := t.total + 1 }

/-- The update `cell.correct += 1` (also `cell.correct++`). -/
def Tally.addCorrect (t : Tally) : Tally :=
  { t with correct := t.correct + 1 }

/-- The table `TOPIC_LABELS`. -/
def TOPIC_LABELS : List (String × String) :=
  [("arithmetic", "Arithmetic"), ("fractions", "Fractions"), ("percentages", "Percentages"),
   ("decimals", "Decimals"), ("measure-and-time", "Measure & Time"),
   ("geometry-and-angles", "Geometry & Angles"),
   ("statistics-and-averages", "Statistics & Averages"), ("money", "Money"),
   ("synonyms", "Synonyms"), ("antonyms", "Antonyms"), ("homophones", "Homophones"),
   ("spelling", "Spelling"), ("punctuation", "Punctuation"), ("grammar", "Grammar"),
   ("nouns", "Nouns"), ("verbs", "Verbs"), ("adjectives", "Adjectives"), ("adverbs", "Adverbs"),
   ("conjunctions", "Conjunctions"), ("verb-tenses", "Verb Tenses"),
   ("word-relations", "Word Relations"), ("word-patterns", "Word Patterns"),
   ("word-sequences", "Word Sequences"), ("odd-one-out-words", "Odd One Out (Words)"),
   ("word-analogies", "Word Analogies"), ("word-codes", "Word Codes"),
   ("compound-words", "Compound Words"), ("odd-one-out-shapes", "Odd One Out (Shapes)"),
   ("shape-sequences", "Shape Sequences"),
   ("rotations-and-reflections", "Rotations & Reflections"),
   ("shape-properties", "Shape Properties"), ("nets-and-3d", "Nets & 3D Shapes")]

/-! ## The result view -/

/-- The data of one `review-item` element. -/
structure ReviewItem where
  number : Nat
  category : String
  question : String
  correctAnswerText : Option String
  userAnswerText : Option String
  isCorrect : Bool
  explanation : Option String
  deriving DecidableEq, Repr

/-- One `<li>` of the summary: a topic of a subject. -/
structure TopicLine where
  label : String
  correct : Nat
  total : Nat
  percent : Option Nat
  deriving DecidableEq, Repr

/-- One `<h4>` block of the summary: a subject with its topics. -/
structure SubjectBlock where
  subject : String
  subjectPercentage : Option Nat
  topics : List TopicLine
  deriving DecidableEq, Repr

/-- What `showResult` renders: the headline (`timeUp`, `score`, number of
questions), the review list and the summary by topic. -/
structure ResultView where
  timeUp : Bool
  score : Nat
  total : Nat
  review : List ReviewItem
  summary : List SubjectBlock
  deriving DecidableEq, Repr

/-! ## Statistics of `showResult` -/

/-- The local objects of `showResult`. -/
structure Stats where
  categoryStats : List (String × Tally)
  topicStats : List (String × Tally)
  subjectCorrectCounts : List (String × Nat)
  subjectTotalCounts : List (String × Nat)
  subjectTopicStats : List (String × List (String × Tally))
  review : List ReviewItem
  deriving DecidableEq, Repr

/-- The objects as declared: all empty. -/
def Stats.empty : Stats :=
  { categoryStats := [], topicStats := [], subjectCorrectCounts := [],
    subjectTotalCounts := [], subjectTopicStats := [], review := [] }

/-- The array read `answers[index]`; a hole or an index past the end is `undefined`. -/
def answerAt (answers : List (Option Nat)) (index : Nat) : Option Nat :=
  answers.getD index none

/-- The array write `answers[index] = value`; writing past the end leaves holes. -/
def arraySet (answers : List (Option Nat)) (index value : Nat) : List (Option Nat) :=
  if index < answers.length then answers.set index (some value)
  else answers ++ List.replicate (index - answers.length) none ++ [some value]

/-- The test `chosenIndex === q.answerIndex`. -/
def isCorrect (answers : List (Option Nat)) (q : Question) (index : Nat) : Bool :=
  decide (answerAt answers index = some q.answerIndex)

/-- The topic of a question as the tests `if (q.topic)` / `if (!q.topic)` see it:
a missing topic and the empty string are both falsy. -/
def topicOf (q : Question) : Option String :=
  match q.topic with
  | some t => if t = "" then none else some t
  | none => none

/-- The test `!counts[k]` on a number-valued object: `undefined` and `0` are falsy. -/
def falsyCount (v : Option Nat) : Bool :=
  match v with
  | none => true
  | some n => decide (n = 0)

/-- The value `Math.round((correct / total) * 100)` in exact arithmetic, half
rounded up; `none` when `total` is `0` (the quotient is then `NaN` or `Infinity`). -/
def roundPercent (correct total : Nat) : Option Nat :=
  if total = 0 then none else some ((200 * correct + total) / (2 * total))

/-- The percentage of two property reads; an `undefined` operand gives `NaN`. -/
def roundPercentOf (correct total : Option Nat) : Option Nat :=
  match correct, total with
  | some c, some t => roundPercent c t
  | _, _ => none

/-- The method `array.forEach((q, index) => ...)` threading the state of the
closure, entered at position `index`. -/
def forEachFrom {σ : Type} (f : σ → Question → Nat → σ) : List Question → Nat → σ → σ
  | [], _, st => st
  | q :: qs, index, st => forEachFrom f qs (index + 1) (f st q index)

/-- The data of the review item built for question `q` at position `index`. -/
def reviewItem (answers : List (Option Nat)) (q : Question) (index : Nat) : ReviewItem :=
  let chosenIndex := answerAt answers index
  let userAnswerText : Option String :=
    match chosenIndex with
    | some c => q.options[c]?
    | none => some "(no answer)"
  let correctAnswerText := q.options[q.answerIndex]?
  { number := index + 1, category := q.category, question := q.question,
    correctAnswerText := correctAnswerText, userAnswerText := userAnswerText,
    isCorrect := isCorrect answers q index,
    explanation := match q.explanation with
      | some e => if e = "" then none else some e
      | none => none }

/-- The body of the first `quizQuestions.forEach` of `showResult`. -/
def firstPass (answers : List (Option Nat)) (st : Stats) (q : Question) (index : Nat) : Stats :=
  let ok := isCorrect answers q index
  let item := reviewItem answers q index
  -- accumulate stats by category
  let cat := if q.category = "" then "Other" else q.category
  let categoryStats :=
    if (get? cat st.categoryStats).isNone then assign cat ⟨0, 0⟩ st.categoryStats
    else st.categoryStats
  let categoryStats := modify cat Tally.addTotal categoryStats
  let categoryStats := if ok then modify cat Tally.addCorrect categoryStats else categoryStats
  -- accumulate stats by topic
  let topicStats :=
    match topicOf q with
    | some topic =>
      let ts :=
        if (get? topic st.topicStats).isNone then assign topic ⟨0, 0⟩ st.topicStats
        else st.topicStats
      let ts := modify topic Tally.addTotal ts
      if ok then modify topic Tally.addCorrect ts else ts
    | none => st.topicStats
  -- accumulate stats by subject
  let reset := falsyCount (get? q.category st.subjectCorrectCounts)
  let subjectCorrectCounts :=
    if reset then assign q.category 0 st.subjectCorrectCounts else st.subjectCorrectCounts
  let subjectTotalCounts :=
    if reset then assign q.category 0 st.subjectTotalCounts else st.subjectTotalCounts
  let subjectTotalCounts := modify q.category (· + 1) subjectTotalCounts
  let subjectCorrectCounts :=
    if ok then modify q.category (· + 1) subjectCorrectCounts else subjectCorrectCounts
  { st with
    review := st.review ++ [item], categoryStats := categoryStats, topicStats := topicStats,
    subjectCorrectCounts := subjectCorrectCounts, subjectTotalCounts := subjectTotalCounts }

/-- The body of the second `quizQuestions.forEach` of `showResult`. -/
def secondPass (answers : List (Option Nat)) (st : Stats) (q : Question) (index : Nat) : Stats :=
  let ok := isCorrect answers q index
  -- initialise subject if missing
  let subjectTopicStats :=
    if (get? q.category st.subjectTopicStats).isNone then assign q.category [] st.subjectTopicStats
    else st.subjectTopicStats
  match topicOf q with
  | none => { st with subjectTopicStats := subjectTopicStats }
  | some topic =>
    let topics := (get? q.category subjectTopicStats).getD []
    -- initialise topic if missing
    let topics := if (get? topic topics).isNone then assign topic ⟨0, 0⟩ topics else topics
    -- update stats for topics
    let topics := modify topic Tally.addTotal topics
    let topics := if ok then modify topic Tally.addCorrect topics else topics
    -- update subject stats
    let subjectTotalCounts := modify q.category (· + 1) st.subjectTotalCounts
    let subjectCorrectCounts :=
      if ok then modify q.category (· + 1) st.subjectCorrectCounts else st.subjectCorrectCounts
    { st with
      subjectTopicStats := assign q.category topics subjectTopicStats,
      subjectTotalCounts := subjectTotalCounts, subjectCorrectCounts := subjectCorrectCounts }

/-- The statistics objects of `showResult` after both `forEach` loops. -/
def buildStats (quizQuestions : List Question) (answers : List (Option Nat)) : Stats :=
  forEachFrom (secondPass answers) quizQuestions 0
    (forEachFrom (firstPass answers) quizQuestions 0 Stats.empty)

/-- The body of `Object.keys(topics).forEach(topic => ...)`. -/
def topicLine (topics : List (String × Tally)) (topic : String) : TopicLine :=
  let correct := ((get? topic topics).map Tally.correct).getD 0
  let total := ((get? topic topics).map Tally.total).getD 0
  { label := (get? topic TOPIC_LABELS).getD topic, correct := correct, total := total,
    percent := roundPercent correct total }

/-- The body of `Object.keys(subjectTopicStats).forEach(subject => ...)`. -/
def subjectBlock (st : Stats) (subject : String) : SubjectBlock :=
  let subjectCorrect := get? subject st.subjectCorrectCounts
  let subjectTotal := get? subject st.subjectTotalCounts
  let topics := (get? subject st.subjectTopicStats).getD []
  { subject := subject, subjectPercentage := roundPercentOf subjectCorrect subjectTotal,
    topics := (keys topics).map (topicLine topics) }

/-- The summary by topic: one block for each key of `subjectTopicStats`. -/
def summaryOf (st : Stats) : List SubjectBlock :=
  (keys st.subjectTopicStats).map (subjectBlock st)

/-! ## The quiz session -/

/-- The module-level state of `app.js` together with the rendered result. -/
structure State where
  mathsQuestions : List Question
  englishQuestions : List Question
  verbalQuestions : List Question
  nvrQuestions : List Question
  questionsLoaded : Bool
  quizQuestions : List Question
  currentIndex : Nat
  score : Nat
  answers : List (Option Nat)
  timerId : Option Nat
  timeLeft : Int
  quizActive : Bool
  currentMode : String
  selectedOption : Option Nat
  resultView : Option ResultView
  deriving DecidableEq, Repr

/-- The values of the form controls read by `setupQuiz`: `categorySelect.value`,
`Number(numQuestionsInput.value)`, `Number(timeMinsInput.value)`, `modeSelect.value`. -/
structure Inputs where
  categorySelect : String
  numQuestionsInput : JSNumber
  timeMinsInput : JSNumber
  modeSelect : String
  deriving DecidableEq, Repr

/-- The function `stopTimer()`. -/
def stopTimer (s : State) : State :=
  { s with timerId := none }

/-- The function `showResult(timeUp)`. -/
def showResult (timeUp : Bool) (s : State) : State :=
  let s := stopTimer s
  let s := { s with quizActive := false }
  let st := buildStats s.quizQuestions s.answers
  let view : ResultView :=
    { timeUp := timeUp, score := s.score, total := s.quizQuestions.length,
      review := st.review, summary := summaryOf st }
  { s with resultView := some view }

/-- The function `startTimer(totalSeconds)`: the previous interval is cleared and
a new one is installed.  Only whether `timerId` is `null` is ever observed. -/
def startTimer (totalSeconds : Int) (s : State) : State :=
  { s with timeLeft := totalSeconds, timerId := some 1 }

/-- One firing of the interval callback installed by `startTimer`.  A cleared
interval (`timerId` is `null`) does not fire. -/
def tick (s : State) : State :=
  match s.timerId with
  | none => s
  | some _ =>
    let s := { s with timeLeft := s.timeLeft - 1 }
    if s.timeLeft < 0 then
      showResult true { s with timerId := none, timeLeft := 0 }
    else s

/-- The function `getPoolForSubject(subject)`. -/
def getPoolForSubject (s : State) (subject : String) : List Question :=
  if subject = "Maths" then s.mathsQuestions
  else if subject = "English" then s.englishQuestions
  else if subject = "Verbal" then s.verbalQuestions
  else if subject = "NVR" then s.nvrQuestions
  else s.mathsQuestions ++ s.englishQuestions ++ s.verbalQuestions ++ s.nvrQuestions

/-- The function `showQuestion()`: without a current question it returns at once. -/
def showQuestion (s : State) : State :=
  match s.quizQuestions[s.currentIndex]? with
  | none => s
  | some _ => { s with selectedOption := none }

/-- The function `setupQuiz()`. -/
def setupQuiz (inp : Inputs) (rand : Nat → Nat) (s : State) : State :=
  if s.questionsLoaded = false then s
  else
    let numQuestions := inp.numQuestionsInput.orDefault 10
    let timeMins := inp.timeMinsInput.orDefault 10
    let pool := getPoolForSubject s inp.categorySelect
    let s := { s with currentMode := inp.modeSelect }
    if pool.length = 0 then s
    else
      let numQuestions := if numQuestions > (pool.length : Int) then (pool.length : Int)
        else numQuestions
      let shuffled := shuffle rand pool
      let s := { s with
        quizQuestions := slice0 shuffled numQuestions, currentIndex := 0, score := 0,
        answers := [], quizActive := true }
      let s := showQuestion s
      if s.currentMode = "exam" then startTimer (timeMins * 60) s
      else stopTimer s

/-- The click handler of an option button: `selectedOption = index`. -/
def optionClick (index : Nat) (s : State) : State :=
  { s with selectedOption := some index }

/-- The handler `nextBtn.onclick`.  When there is no current question the read
`q.answerIndex` throws after `answers[currentIndex]` has been written. -/
def nextClick (s : State) : State :=
  if s.quizActive = false then s
  else if s.currentMode = "exam" ∧ s.timerId = none ∧ s.timeLeft ≤ 0 then s
  else
    match s.selectedOption with
    | none => s
    | some selected =>
      let s := { s with answers := arraySet s.answers s.currentIndex selected }
      match s.quizQuestions[s.currentIndex]? with
      | none => s
      | some q =>
        let s := if selected = q.answerIndex then { s with score := s.score + 1 } else s
        let s := { s with currentIndex := s.currentIndex + 1 }
        if s.currentIndex < s.quizQuestions.length then showQuestion s
        else showResult false s

/-- The events of a running session. -/
inductive Event where
  | option (index : Nat) : Event
  | next : Event
  | tick : Event
  deriving DecidableEq, Repr

/-- The handler of one event. -/
def step (s : State) : Event → State
  | .option index => optionClick index s
  | .next => nextClick s
  | .tick => tick s

/-- The state after a sequence of events. -/
def run (events : List Event) (s : State) : State :=
  events.foldl step s

/-- The state after `n` firings of the interval callback. -/
def ticks : Nat → State → State
  | 0, s => s
  | n + 1, s => ticks n (tick s)

/-! ## Sample data -/

/-- A Maths question with a topic. -/
def sampleFractions : Question :=
  { category := "Maths", topic := some "fractions", question := "What is 1/2 + 1/4?",
    options := ["1/4", "3/4", "1"], answerIndex := 1, explanation := none }

/-- A Maths question without a topic. -/
def sampleSum : Question :=
  { category := "Maths", topic := none, question := "What is 2 + 2?",
    options := ["4", "5"], answerIndex := 0, explanation := none }

/-- A second Maths question without a topic. -/
def sampleProduct : Question :=
  { category := "Maths", topic := none, question := "What is 3 x 3?",
    options := ["6", "9"], answerIndex := 1, explanation := none }

/-- The state after the question files have loaded: three Maths questions, the
other subjects empty, no session yet. -/
def sampleLoaded : State :=
  { mathsQuestions := [sampleFractions, sampleSum, sampleProduct], englishQuestions := [],
    verbalQuestions := [], nvrQuestions := [], questionsLoaded := true, quizQuestions := [],
    currentIndex := 0, score := 0, answers := [], timerId := none, timeLeft := 0,
    quizActive := false, currentMode := "exam", selectedOption := none, resultView := none }

/-- The form as filled in for a one-minute Maths exam of ten questions. -/
def sampleInputs : Inputs :=
  { categorySelect := "Maths", numQuestionsInput := .int 10, timeMinsInput := .int 1,
    modeSelect := "exam" }

/-- The form asking for a practice session on English, whose pool is empty. -/
def sampleEnglishInputs : Inputs :=
  { categorySelect := "English", numQuestionsInput := .int 5, timeMinsInput := .int 10,
    modeSelect := "practice" }

/-- The form with a negative question count. -/
def sampleNegativeInputs : Inputs :=
  { categorySelect := "Maths", numQuestionsInput := .int (-1), timeMinsInput := .int 10,
    modeSelect := "practice" }

/-- The form as filled in for a practice session of two Maths questions. -/
def sampleTwoInputs : Inputs :=
  { categorySelect := "Maths", numQuestionsInput := .int 2, timeMinsInput := .int 10,
    modeSelect := "practice" }

/-- A running exam session on the sample pool. -/
def sampleSession : State :=
  setupQuiz sampleInputs (fun _ => 0) sampleLoaded

/-- A finished practice session: the questions are `sampleFractions` and
`sampleSum` (the draws leave the pool in order); the first is answered with
option 1 (right), the second with option 1 (wrong). -/
def sampleFinished : State :=
  run [.option 1, .next, .option 1, .next] (setupQuiz sampleTwoInputs (fun i => i) sampleLoaded)

/-- A Maths question whose topic is the empty string. -/
def sampleEmptyTopic : Question :=
  { category := "Maths", topic := some "", question := "What is 5 - 2?",
    options := ["2", "3"], answerIndex := 1, explanation := none }

/-! ## Quantities the properties speak about -/

/-- Whether index `i` has a recorded answer equal to `quizQuestions[i].answerIndex`. -/
def correctAt (quizQuestions : List Question) (answers : List (Option Nat)) (i : Nat) : Bool :=
  match quizQuestions[i]? with
  | some q => isCorrect answers q i
  | none => false

/-- The number of indices `i` with a recorded answer `answers[i]` equal to
`quizQuestions[i].answerIndex`. -/
def recordedCorrect (quizQuestions : List Question) (answers : List (Option Nat)) : Nat :=
  (List.range quizQuestions.length).countP (correctAt quizQuestions answers)

/-- The invariant of a session: the questions before `currentIndex` are exactly
the answered ones, a running session has a current question, and `score` counts
the right answers among the questions before `currentIndex`. -/
def SessionInv (s : State) : Prop :=
  s.answers.length = s.currentIndex
    ∧ (s.quizActive = true → s.currentIndex < s.quizQuestions.length)
    ∧ s.score = (List.range s.currentIndex).countP (correctAt s.quizQuestions s.answers)

/-- The number of session questions of subject `s` with topic `t`, counted with
the test `topicOf` of the code. -/
def topicTotal (quizQuestions : List Question) (s t : String) : Nat :=
  quizQuestions.countP fun q => decide (q.category = s ∧ topicOf q = some t)

/-- The number of session questions of subject `s` with topic `t` whose recorded
answer is the right one, counted with the tests `topicOf` and `isCorrect` of the
code. -/
def topicCorrect (quizQuestions : List Question) (answers : List (Option Nat))
    (s t : String) : Nat :=
  quizQuestions.enum.countP fun iq =>
    decide (iq.2.category = s ∧ topicOf iq.2 = some t) && isCorrect answers iq.2 iq.1

/-- The number of session questions of subject `s`. -/
def subjectTotal (quizQuestions : List Question) (s : String) : Nat :=
  quizQuestions.countP fun q => decide (q.category = s)

/-- The number of session questions of subject `s` answered correctly. -/
def subjectCorrect (quizQuestions : List Question) (answers : List (Option Nat))
    (s : String) : Nat :=
  quizQuestions.enum.countP fun iq => decide (iq.2.category = s) && isCorrect answers iq.2 iq.1

/-- The names of the members of `Object.prototype`.  Read on a fresh object, each
of them gives an inherited, truthy value, so the source never creates an own
entry under such a key. -/
def objectPrototypeKeys : List String :=
  ["constructor", "hasOwnProperty", "isPrototypeOf", "propertyIsEnumerable", "toLocaleString",
   "toString", "valueOf", "__proto__", "__defineGetter__", "__defineSetter__",
   "__lookupGetter__", "__lookupSetter__"]

/-- Whether `k` is a key without an inherited member. -/
def ordinaryKey (k : String) : Bool :=
  !objectPrototypeKeys.contains k

/-- Whether the categories and the topics of all questions are ordinary keys. -/
def ordinaryKeys (quizQuestions : List Question) : Bool :=
  quizQuestions.all fun q =>
    ordinaryKey q.category &&
      match q.topic with
      | some t => ordinaryKey t
      | none => true

/-- The number of session questions whose `category` is `s` and whose `topic`
field is `t`. -/
def topicQuestions (quizQuestions : List Question) (s t : String) : Nat :=
  quizQuestions.countP fun q => decide (q.category = s ∧ q.topic = some t)

/-- The number of positions `i` of the session whose question has `category` `s`
and `topic` field `t` and whose array slot `answers[i]` holds the question's
`answerIndex`. -/
def topicQuestionsRight (quizQuestions : List Question) (answers : List (Option Nat))
    (s t : String) : Nat :=
  quizQuestions.enum.countP fun iq =>
    decide (iq.2.category = s ∧ iq.2.topic = some t
      ∧ answers[iq.1]? = some (some iq.2.answerIndex))

/-- The entry `subjectTopicStats[s][t]`, if there is one. -/
def topicEntry (st : Stats) (s t : String) : Option Tally :=
  (get? s st.subjectTopicStats).bind (get? t)

/-- The cell `e` (a missing cell counts from zero) after `n` more questions, `c` of
them answered correctly; without a question the cell is as before. -/
def bump (e : Option Tally) (c n : Nat) : Option Tally :=
  if n = 0 then e
  else some { correct := (e.getD ⟨0, 0⟩).correct + c, total := (e.getD ⟨0, 0⟩).total + n }

/-- Subject `k` has been counted: `subjectTotalCounts[k]` is a number that is at
least 1 and `subjectCorrectCounts[k]` is a number. -/
def SubjectCounted (st : Stats) (k : String) : Prop :=
  (∃ t, get? k st.subjectTotalCounts = some t ∧ 1 ≤ t)
    ∧ (get? k st.subjectCorrectCounts).isSome = true

/-- Every subject with a correct count also has a total of at least 1. -/
def CountsInv (st : Stats) : Prop :=
  ∀ k, (get? k st.subjectCorrectCounts).isSome = true →
    ∃ t, get? k st.subjectTotalCounts = some t ∧ 1 ≤ t

/-- The sum of the values of a number-valued object. -/
def sumValues (m : List (String × Nat)) : Nat :=
  (m.map Prod.snd).sum

/-! ## Lemmas: shuffle -/

theorem swap_length {α : Type} (l : List α) (i j : Nat) : (swap l i j).length = l.length := by
  unfold swap
  split <;> simp

theorem cons_perm_set {α : Type} (x a : α) (l : List α) (j : Nat) (h : l[j]? = some a) :
    (x :: l).Perm (a :: l.set j x) := by
  induction l generalizing j with
  | nil => simp at h
  | cons y t ih =>
    cases j with
    | zero =>
      simp at h
      subst h
      simpa using List.Perm.swap y x t
    | succ j =>
      simp at h
      have h1 : (x :: y :: t).Perm (y :: x :: t) := List.Perm.swap y x t
      have h2 : (y :: x :: t).Perm (y :: a :: t.set j x) := (ih j h).cons y
      have h3 : (y :: a :: t.set j x).Perm (a :: y :: t.set j x) := List.Perm.swap a y _
      simpa using (h1.trans h2).trans h3

theorem set_set_perm_self {α : Type} (a b : α) (l : List α) (i j : Nat)
    (hi : l[i]? = some a) (hj : l[j]? = some b) : ((l.set i b).set j a).Perm l := by
  induction l generalizing i j with
  | nil => simp at hi
  | cons y t ih =>
    cases i with
    | zero =>
      simp at hi
      subst hi
      cases j with
      | zero =>
        simp at hj
        subst hj
        simp
      | succ j =>
        simp at hj
        simpa using (cons_perm_set y b t j hj).symm
    | succ i =>
      simp at hi
      cases j with
      | zero =>
        simp at hj
        subst hj
        simpa using (cons_perm_set y a t i hi).symm
      | succ j =>
        simp at hj
        simpa using (ih i j hi hj).cons y

theorem swap_perm {α : Type} (l : List α) (i j : Nat) : (swap l i j).Perm l := by
  unfold swap
  split
  · next a b ha hb => exact set_set_perm_self a b l i j ha hb
  · exact List.Perm.refl _

theorem shuffleLoop_perm {α : Type} (rand : Nat → Nat) (i : Nat) (l : List α) :
    (shuffleLoop rand i l).Perm l := by
  induction i generalizing l with
  | zero => exact List.Perm.refl _
  | succ i ih => exact (ih _).trans (swap_perm l _ _)

theorem shuffle_length {α : Type} (rand : Nat → Nat) (l : List α) :
    (shuffle rand l).length = l.length :=
  (shuffleLoop_perm rand _ l).length_eq

/-! ## Lemmas: setupQuiz -/

theorem shuffle_of_length_le_one {α : Type} (rand : Nat → Nat) (l : List α)
    (h : l.length ≤ 1) : shuffle rand l = l := by
  have h0 : l.length - 1 = 0 := by omega
  simp [shuffle, h0, shuffleLoop]

theorem showQuestion_eq (s : State) :
    showQuestion s = s ∨ showQuestion s = { s with selectedOption := none } := by
  unfold showQuestion; split
  · exact Or.inl rfl
  · exact Or.inr rfl

@[simp] theorem showQuestion_quizQuestions (s : State) :
    (showQuestion s).quizQuestions = s.quizQuestions := by
  rcases showQuestion_eq s with h | h <;> rw [h]

@[simp] theorem showQuestion_currentIndex (s : State) :
    (showQuestion s).currentIndex = s.currentIndex := by
  rcases showQuestion_eq s with h | h <;> rw [h]

@[simp] theorem showQuestion_score (s : State) : (showQuestion s).score = s.score := by
  rcases showQuestion_eq s with h | h <;> rw [h]

@[simp] theorem showQuestion_answers (s : State) : (showQuestion s).answers = s.answers := by
  rcases showQuestion_eq s with h | h <;> rw [h]

@[simp] theorem showQuestion_quizActive (s : State) :
    (showQuestion s).quizActive = s.quizActive := by
  rcases showQuestion_eq s with h | h <;> rw [h]

@[simp] theorem showQuestion_currentMode (s : State) :
    (showQuestion s).currentMode = s.currentMode := by
  rcases showQuestion_eq s with h | h <;> rw [h]

theorem slice0_length {α : Type} (l : List α) (n : Int) (h : 0 ≤ n) :
    (slice0 l n).length = min n.toNat l.length := by
  have : ¬ n < 0 := by omega
  simp [slice0, this]

/-- The session fields are those of the state handed to the timer functions. -/
theorem timer_fields (c : Prop) [Decidable c] (t : Int) (s : State) :
    (if c then startTimer t s else stopTimer s).quizQuestions = s.quizQuestions
      ∧ (if c then startTimer t s else stopTimer s).currentIndex = s.currentIndex
      ∧ (if c then startTimer t s else stopTimer s).score = s.score
      ∧ (if c then startTimer t s else stopTimer s).answers = s.answers
      ∧ (if c then startTimer t s else stopTimer s).quizActive = s.quizActive := by
  split <;> simp [startTimer, stopTimer]

/-- The state a successful `setupQuiz` leaves, for a count that is positive after
defaulting: the fields of the new session. -/
theorem setupQuiz_session_of_count (inp : Inputs) (rand : Nat → Nat) (s : State)
    (hl : s.questionsLoaded = true) (hp : getPoolForSubject s inp.categorySelect ≠ [])
    (hpos : 0 < inp.numQuestionsInput.orDefault 10) :
    (setupQuiz inp rand s).quizQuestions.length
        = min (inp.numQuestionsInput.orDefault 10).toNat
            (getPoolForSubject s inp.categorySelect).length
      ∧ (setupQuiz inp rand s).currentIndex = 0
      ∧ (setupQuiz inp rand s).score = 0
      ∧ (setupQuiz inp rand s).answers = []
      ∧ (setupQuiz inp rand s).quizActive = true := by
  have hlen : (getPoolForSubject s inp.categorySelect).length ≠ 0 := by
    simpa using hp
  have key : ∀ m : Int, 0 ≤ m →
      (slice0 (shuffle rand (getPoolForSubject s inp.categorySelect)) m).length
        = min m.toNat (getPoolForSubject s inp.categorySelect).length := by
    intro m hm
    rw [slice0_length _ _ hm, shuffle_length]
  simp only [setupQuiz, hl, hlen]
  simp only [Bool.true_eq_false, if_false]
  generalize getPoolForSubject s inp.categorySelect = pool at *
  generalize inp.numQuestionsInput.orDefault 10 = count at *
  refine ⟨?_, ?_, ?_, ?_, ?_⟩
  · rw [(timer_fields _ _ _).1, showQuestion_quizQuestions]
    show (slice0 (shuffle rand pool) _).length = _
    rw [key _ (by split <;> omega)]
    split
    · simp; omega
    · simp
  · rw [(timer_fields _ _ _).2.1, showQuestion_currentIndex]
  · rw [(timer_fields _ _ _).2.2.1, showQuestion_score]
  · rw [(timer_fields _ _ _).2.2.2.1, showQuestion_answers]
  · rw [(timer_fields _ _ _).2.2.2.2, showQuestion_quizActive]

/-- The state a successful `setupQuiz` leaves for a positive integer count. -/
theorem setupQuiz_session (inp : Inputs) (rand : Nat → Nat) (s : State) (n : Int)
    (hl : s.questionsLoaded = true) (hp : getPoolForSubject s inp.categorySelect ≠ [])
    (hn : inp.numQuestionsInput = JSNumber.int n) (hpos : 0 < n) :
    (setupQuiz inp rand s).quizQuestions.length
        = min n.toNat (getPoolForSubject s inp.categorySelect).length
      ∧ (setupQuiz inp rand s).currentIndex = 0
      ∧ (setupQuiz inp rand s).score = 0
      ∧ (setupQuiz inp rand s).answers = []
      ∧ (setupQuiz inp rand s).quizActive = true := by
  have hn0 : n ≠ 0 := by omega
  have hc : inp.numQuestionsInput.orDefault 10 = n := by
    simp [hn, JSNumber.orDefault, hn0]
  have h := setupQuiz_session_of_count inp rand s hl hp (by rw [hc]; exact hpos)
  rw [hc] at h
  exact h

/-- The part of the defaulting that works: a count of `0` and a non-numeric count
(`NaN`) are replaced by 10, and the session has `min(10, pool.length)` questions. -/
theorem setupQuiz_default_count (inp : Inputs) (rand : Nat → Nat) (s : State)
    (hl : s.questionsLoaded = true) (hp : getPoolForSubject s inp.categorySelect ≠ [])
    (hn : inp.numQuestionsInput = JSNumber.nan ∨ inp.numQuestionsInput = JSNumber.int 0) :
    (setupQuiz inp rand s).quizQuestions.length
      = min 10 (getPoolForSubject s inp.categorySelect).length := by
  have hc : inp.numQuestionsInput.orDefault 10 = 10 := by
    rcases hn with h | h <;> simp [h, JSNumber.orDefault]
  have h := (setupQuiz_session_of_count inp rand s hl hp (by rw [hc]; decide)).1
  rw [hc] at h
  exact h

/-! ## Lemmas: the review list -/

theorem firstPass_review (answers : List (Option Nat)) (st : Stats) (q : Question) (i : Nat) :
    (firstPass answers st q i).review = st.review ++ [reviewItem answers q i] := rfl

theorem secondPass_review (answers : List (Option Nat)) (st : Stats) (q : Question) (i : Nat) :
    (secondPass answers st q i).review = st.review := by
  unfold secondPass
  cases topicOf q <;> rfl

theorem forEach_firstPass_review (answers : List (Option Nat)) (qs : List Question) (i : Nat)
    (st : Stats) :
    (forEachFrom (firstPass answers) qs i st).review
      = st.review ++ (qs.enumFrom i).map fun iq => reviewItem answers iq.2 iq.1 := by
  induction qs generalizing i st with
  | nil => simp [forEachFrom]
  | cons q qs ih => simp [forEachFrom, ih, firstPass_review]

theorem forEach_secondPass_review (answers : List (Option Nat)) (qs : List Question) (i : Nat)
    (st : Stats) : (forEachFrom (secondPass answers) qs i st).review = st.review := by
  induction qs generalizing i st with
  | nil => rfl
  | cons q qs ih => simp [forEachFrom, ih, secondPass_review]

theorem buildStats_review (qs : List Question) (answers : List (Option Nat)) :
    (buildStats qs answers).review = qs.enum.map fun iq => reviewItem answers iq.2 iq.1 := by
  simp [buildStats, forEach_secondPass_review, forEach_firstPass_review, Stats.empty, List.enum]

theorem isCorrect_nil (q : Question) (i : Nat) : isCorrect [] q i = false := by
  simp [isCorrect, answerAt]

/-! ## Lemmas: the countdown -/

theorem tick_running (s : State) (h : s.timerId ≠ none) (ht : 1 ≤ s.timeLeft) :
    tick s = { s with timeLeft := s.timeLeft - 1 } := by
  unfold tick
  cases hid : s.timerId with
  | none => exact absurd hid h
  | some id =>
    have : ¬ s.timeLeft - 1 < 0 := by omega
    simp [this]

theorem tick_expire (s : State) (h : s.timerId ≠ none) (ht : s.timeLeft ≤ 0) :
    tick s = showResult true { s with timerId := none, timeLeft := 0 } := by
  unfold tick
  cases hid : s.timerId with
  | none => exact absurd hid h
  | some id =>
    have : s.timeLeft - 1 < 0 := by omega
    simp [this]

theorem ticks_succ (n : Nat) (s : State) : ticks (n + 1) s = tick (ticks n s) := by
  induction n generalizing s with
  | zero => rfl
  | succ n ih =>
    show ticks (n + 1) (tick s) = tick (ticks n (tick s))
    exact ih (tick s)

theorem ticks_countdown (k : Nat) (s : State) (h : s.timerId ≠ none)
    (hk : (k : Int) ≤ s.timeLeft) : ticks k s = { s with timeLeft := s.timeLeft - k } := by
  induction k with
  | zero => simp [ticks]
  | succ k ih =>
    have hk1 : (k : Int) ≤ s.timeLeft := by omega
    rw [ticks_succ, ih hk1]
    have hrun := tick_running { s with timeLeft := s.timeLeft - k } h
      (by show 1 ≤ s.timeLeft - k; omega)
    rw [hrun]
    have : s.timeLeft - (k : Int) - 1 = s.timeLeft - ((k + 1 : Nat) : Int) := by omega
    simp only [this]


/-- The state at the expiry of a countdown started with `n` seconds. -/
theorem ticks_expire (n : Nat) (s : State) :
    ticks (n + 1) (startTimer n s)
      = showResult true { s with timerId := none, timeLeft := 0 } := by
  have h1 : (startTimer n s).timerId ≠ none := by simp [startTimer]
  rw [ticks_succ, ticks_countdown n (startTimer n s) h1 (by simp [startTimer])]
  have h2 := tick_expire { startTimer n s with timeLeft := (startTimer n s).timeLeft - n }
    (by simp [startTimer]) (by simp [startTimer])
  rw [h2]
  simp [startTimer]

/-! ## Lemmas: the session invariant -/

theorem SessionInv.of_fields {s s' : State} (h : SessionInv s)
    (ha : s'.answers = s.answers) (hc : s'.currentIndex = s.currentIndex)
    (hq : s'.quizQuestions = s.quizQuestions) (hs : s'.score = s.score)
    (hact : s'.quizActive = true → s.quizActive = true) : SessionInv s' := by
  obtain ⟨h1, h2, h3⟩ := h
  refine ⟨by rw [ha, hc]; exact h1, ?_, by rw [hs, hc, hq, ha]; exact h3⟩
  intro h'
  rw [hc, hq]
  exact h2 (hact h')

theorem sessionInv_showResult (b : Bool) (s : State) (h : SessionInv s) :
    SessionInv (showResult b s) :=
  h.of_fields rfl rfl rfl rfl (fun h' => by simp [showResult] at h')

theorem sessionInv_showQuestion (s : State) (h : SessionInv s) : SessionInv (showQuestion s) :=
  h.of_fields (by simp) (by simp) (by simp) (by simp) (by simp)

theorem sessionInv_tick (s : State) (h : SessionInv s) : SessionInv (tick s) := by
  by_cases hid : s.timerId = none
  · have : tick s = s := by simp [tick, hid]
    rw [this]; exact h
  · by_cases ht : 1 ≤ s.timeLeft
    · rw [tick_running s hid ht]
      exact h.of_fields rfl rfl rfl rfl id
    · rw [tick_expire s hid (by omega)]
      exact sessionInv_showResult _ _ (h.of_fields rfl rfl rfl rfl id)

theorem answerAt_append_lt (answers : List (Option Nat)) (x : Option Nat) (i : Nat)
    (h : i < answers.length) : answerAt (answers ++ [x]) i = answerAt answers i := by
  simp [answerAt, List.getD_eq_getElem?_getD, List.getElem?_append_left h]

theorem answerAt_append_length (answers : List (Option Nat)) (x : Option Nat) :
    answerAt (answers ++ [x]) answers.length = x := by
  simp [answerAt, List.getD_eq_getElem?_getD]

theorem answerAt_of_length_le (answers : List (Option Nat)) (i : Nat)
    (h : answers.length ≤ i) : answerAt answers i = none := by
  simp [answerAt, List.getD_eq_getElem?_getD, List.getElem?_eq_none h]

theorem arraySet_length (answers : List (Option Nat)) (v : Nat) :
    arraySet answers answers.length v = answers ++ [some v] := by
  simp [arraySet]


theorem correctAt_append_lt (qs : List Question) (answers : List (Option Nat)) (x : Option Nat)
    (i : Nat) (h : i < answers.length) :
    correctAt qs (answers ++ [x]) i = correctAt qs answers i := by
  unfold correctAt
  cases qs[i]? with
  | none => rfl
  | some q => simp [isCorrect, answerAt_append_lt _ _ _ h]

theorem correctAt_of_length_le (qs : List Question) (answers : List (Option Nat)) (i : Nat)
    (h : answers.length ≤ i) : correctAt qs answers i = false := by
  unfold correctAt
  cases qs[i]? with
  | none => rfl
  | some q => simp [isCorrect, answerAt_of_length_le _ _ h]

theorem sessionInv_nextClick (s : State) (h : SessionInv s) : SessionInv (nextClick s) := by
  obtain ⟨h1, h2, h3⟩ := h
  unfold nextClick
  by_cases hact : s.quizActive = false
  · simp only [hact, if_true]; exact ⟨h1, h2, h3⟩
  · have hact' : s.quizActive = true := by simpa using hact
    rw [if_neg hact]
    split
    · exact ⟨h1, h2, h3⟩
    · cases hsel : s.selectedOption with
      | none => exact ⟨h1, h2, h3⟩
      | some sel =>
        have hlt := h2 hact'
        obtain ⟨q, hq⟩ : ∃ q, s.quizQuestions[s.currentIndex]? = some q :=
          ⟨_, List.getElem?_eq_getElem hlt⟩
        simp only [hq]
        have hset : arraySet s.answers s.currentIndex sel = s.answers ++ [some sel] := by
          rw [← h1]; exact arraySet_length _ _
        rw [hset]
        have hans : answerAt (s.answers ++ [some sel]) s.currentIndex = some sel := by
          have := answerAt_append_length s.answers (some sel)
          rwa [h1] at this
        have hcount : (List.range (s.currentIndex + 1)).countP
              (correctAt s.quizQuestions (s.answers ++ [some sel]))
            = s.score + (if sel = q.answerIndex then 1 else 0) := by
          rw [List.range_succ, List.countP_append, h3]
          congr 1
          · apply List.countP_congr
            intro i hi
            rw [correctAt_append_lt]
            rw [h1]; exact List.mem_range.mp hi
          · have : correctAt s.quizQuestions (s.answers ++ [some sel]) s.currentIndex
                = decide (sel = q.answerIndex) := by
              unfold correctAt
              rw [hq]
              simp only [isCorrect, hans]
              simp
            simp only [List.countP_cons, List.countP_nil, this]
            split <;> simp_all
        have hinv : ∀ s' : State, s'.answers = s.answers ++ [some sel] →
            s'.currentIndex = s.currentIndex + 1 → s'.quizQuestions = s.quizQuestions →
            s'.score = s.score + (if sel = q.answerIndex then 1 else 0) →
            (s'.quizActive = true → s.currentIndex + 1 < s.quizQuestions.length) →
            SessionInv s' := by
          intro s' ha hc hqs hsc hac
          refine ⟨by rw [ha, hc]; simp [h1], by rw [hc, hqs]; exact hac, ?_⟩
          rw [hsc, hc, hqs, ha, hcount]
        by_cases hcor : sel = q.answerIndex
        · simp only [hcor, if_true]
          split
          · next hlt' =>
            apply hinv <;> simp [hcor]
            intro _; exact hlt'
          · apply hinv <;> simp [hcor, showResult, stopTimer]
        · simp only [hcor, if_false]
          split
          · next hlt' =>
            apply hinv <;> simp [hcor]
            intro _; exact hlt'
          · apply hinv <;> simp [hcor, showResult, stopTimer]

theorem sessionInv_step (s : State) (e : Event) (h : SessionInv s) : SessionInv (step s e) := by
  cases e with
  | option index => exact h.of_fields rfl rfl rfl rfl id
  | next => exact sessionInv_nextClick s h
  | tick => exact sessionInv_tick s h

theorem sessionInv_run (events : List Event) (s : State) (h : SessionInv s) :
    SessionInv (run events s) := by
  induction events generalizing s with
  | nil => exact h
  | cons e es ih => exact ih _ (sessionInv_step s e h)

theorem countP_range_of_false (p : Nat → Bool) (a b : Nat) (h : a ≤ b)
    (hp : ∀ i, a ≤ i → p i = false) :
    (List.range b).countP p = (List.range a).countP p := by
  induction b with
  | zero =>
    have : a = 0 := by omega
    rw [this]
  | succ b ih =>
    rcases Nat.eq_or_lt_of_le h with heq | hlt
    · rw [heq]
    · have hab : a ≤ b := by omega
      rw [List.range_succ, List.countP_append, ih hab]
      simp [hp b hab]

theorem SessionInv.score_eq {s : State} (h : SessionInv s) :
    s.score = recordedCorrect s.quizQuestions s.answers := by
  obtain ⟨h1, _, h3⟩ := h
  rw [h3]
  unfold recordedCorrect
  rcases Nat.le_total s.currentIndex s.quizQuestions.length with hle | hle
  · exact (countP_range_of_false _ _ _ hle
      (fun i hi => correctAt_of_length_le _ _ _ (by omega))).symm
  · exact countP_range_of_false _ _ _ hle (fun i hi => by
      unfold correctAt
      rw [List.getElem?_eq_none hi])

/-! ## Lemmas: dictionaries -/

theorem get?_assign_self {V : Type} (k : String) (v : V) (m : List (String × V)) :
    get? k (assign k v m) = some v := by
  induction m with
  | nil => simp [assign, get?]
  | cons p m ih =>
    obtain ⟨k', v'⟩ := p
    by_cases h : k' = k <;> simp [assign, get?, h, ih]

theorem get?_assign_ne {V : Type} (k k' : String) (v : V) (m : List (String × V))
    (h : k' ≠ k) : get? k' (assign k v m) = get? k' m := by
  induction m with
  | nil => simp [assign, get?, Ne.symm h]
  | cons p m ih =>
    obtain ⟨j, w⟩ := p
    by_cases h1 : j = k
    · have h2 : ¬ j = k' := fun h2 => h (h2.symm.trans h1)
      simp [assign, get?, h1, h2]
      simp [← h1, h2]
    · by_cases h2 : j = k'
      · subst h2
        simp [assign, get?, h1]
      · simp [assign, get?, h1, h2, ih]

theorem get?_modify_self {V : Type} (k : String) (f : V → V) (m : List (String × V)) :
    get? k (modify k f m) = (get? k m).map f := by
  unfold modify
  cases h : get? k m with
  | none => simp [h]
  | some v => simp [get?_assign_self]

theorem get?_modify_ne {V : Type} (k k' : String) (f : V → V) (m : List (String × V))
    (h : k' ≠ k) : get? k' (modify k f m) = get? k' m := by
  unfold modify
  cases get? k m with
  | none => rfl
  | some v => exact get?_assign_ne k k' _ m h

theorem get?_init_self {V : Type} (k : String) (v : V) (m : List (String × V)) :
    get? k (if (get? k m).isNone then assign k v m else m) = some ((get? k m).getD v) := by
  cases h : get? k m with
  | none => simp [get?_assign_self]
  | some w => simp [h]

theorem get?_init_ne {V : Type} (k k' : String) (v : V) (m : List (String × V))
    (h : k' ≠ k) :
    get? k' (if (get? k m).isNone then assign k v m else m) = get? k' m := by
  split
  · exact get?_assign_ne k k' v m h
  · rfl

theorem mem_keys_iff {V : Type} (k : String) (m : List (String × V)) :
    k ∈ keys m ↔ (get? k m).isSome = true := by
  induction m with
  | nil => simp [keys, get?]
  | cons p m ih =>
    obtain ⟨k', v'⟩ := p
    by_cases h : k' = k
    · simp [keys, get?, h]
    · have h' : ¬ k = k' := fun e => h e.symm
      simp only [keys, List.map_cons, List.mem_cons, h', false_or, get?, h, if_false]
      exact ih


/-! ## Lemmas: the second pass -/

theorem get?_getD_nil (m : Option (List (String × Tally))) (t : String) :
    get? t (m.getD []) = m.bind (get? t) := by
  cases m <;> simp [get?]

theorem topicEntry_secondPass (answers : List (Option Nat)) (st : Stats) (q : Question)
    (i : Nat) (s t : String) :
    topicEntry (secondPass answers st q i) s t
      = if q.category = s ∧ topicOf q = some t then
          bump (topicEntry st s t) (if isCorrect answers q i then 1 else 0) 1
        else topicEntry st s t := by
  unfold topicEntry secondPass
  cases ht : topicOf q with
  | none =>
    simp only [reduceCtorEq, and_false, if_false]
    by_cases hs : s = q.category
    · subst hs
      rw [get?_init_self]
      cases get? q.category st.subjectTopicStats <;> simp [get?]
    · rw [get?_init_ne _ _ _ _ hs]
  | some topic =>
    simp only []
    by_cases hs : s = q.category
    · subst hs
      rw [get?_assign_self, get?_init_self]
      simp only [Option.getD_some, Option.some_bind, true_and, Option.some.injEq]
      by_cases htt : t = topic
      · subst htt
        simp only [if_true]
        cases hok : isCorrect answers q i
        · simp only [Bool.false_eq_true, if_false]
          rw [get?_modify_self, get?_init_self, get?_getD_nil]
          simp [bump, Tally.addTotal]
        · simp only [if_true]
          rw [get?_modify_self, get?_modify_self, get?_init_self, get?_getD_nil]
          simp [bump, Tally.addTotal, Tally.addCorrect]
      · have htt' : ¬ topic = t := fun e => htt e.symm
        simp only [htt', if_false]
        cases hok : isCorrect answers q i
        · simp only [Bool.false_eq_true, if_false]
          rw [get?_modify_ne _ _ _ _ htt, get?_init_ne _ _ _ _ htt, get?_getD_nil]
        · simp only [if_true]
          rw [get?_modify_ne _ _ _ _ htt, get?_modify_ne _ _ _ _ htt,
            get?_init_ne _ _ _ _ htt, get?_getD_nil]
    · have hs' : ¬ q.category = s := fun e => hs e.symm
      simp only [hs', false_and, if_false]
      rw [get?_assign_ne _ _ _ _ hs, get?_init_ne _ _ _ _ hs]


theorem bump_zero (e : Option Tally) : bump e 0 0 = e := by
  simp [bump]

theorem bump_bump_one (e : Option Tally) (b c n : Nat) (hcn : n = 0 → c = 0) :
    bump (bump e b 1) c n = bump e (b + c) (1 + n) := by
  unfold bump
  by_cases hn : n = 0
  · simp [hn, hcn hn]
  · have h1 : ¬ 1 + n = 0 := by omega
    simp [hn, h1]
    omega

theorem countP_enumFrom_snd (p : Question → Bool) (qs : List Question) (i : Nat) :
    (qs.enumFrom i).countP (fun iq => p iq.2) = qs.countP p := by
  induction qs generalizing i with
  | nil => rfl
  | cons q qs ih => simp [List.enumFrom_cons, List.countP_cons, ih]

theorem countP_and_le {α : Type} (p r : α → Bool) (l : List α) :
    l.countP (fun a => p a && r a) ≤ l.countP p := by
  induction l with
  | nil => simp
  | cons a l ih =>
    simp only [List.countP_cons]
    cases p a <;> cases r a <;> simp <;> omega

theorem topicEntry_forEach (answers : List (Option Nat)) (qs : List Question) (i : Nat)
    (st : Stats) (s t : String) :
    topicEntry (forEachFrom (secondPass answers) qs i st) s t
      = bump (topicEntry st s t)
          ((qs.enumFrom i).countP fun iq =>
            decide (iq.2.category = s ∧ topicOf iq.2 = some t) && isCorrect answers iq.2 iq.1)
          ((qs.enumFrom i).countP fun iq =>
            decide (iq.2.category = s ∧ topicOf iq.2 = some t)) := by
  induction qs generalizing i st with
  | nil => simp [forEachFrom, bump_zero]
  | cons q qs ih =>
    simp only [forEachFrom, List.enumFrom_cons, List.countP_cons]
    rw [ih, topicEntry_secondPass]
    have hle := countP_and_le
      (fun iq : Nat × Question => decide (iq.2.category = s ∧ topicOf iq.2 = some t))
      (fun iq => isCorrect answers iq.2 iq.1) (qs.enumFrom (i + 1))
    by_cases hm : q.category = s ∧ topicOf q = some t
    · simp only [hm, and_self, if_true, decide_True, Bool.true_and]
      rw [bump_bump_one _ _ _ _ (by
        intro h0
        omega)]
      congr 1
      · cases isCorrect answers q i
        · simp
        · simp; omega
      · omega
    · simp [hm]

/-! ## Lemmas: the subject counters -/

theorem get?_modify {V : Type} (k k' : String) (f : V → V) (m : List (String × V)) :
    get? k' (modify k f m) = if k' = k then (get? k' m).map f else get? k' m := by
  by_cases h : k' = k
  · subst h; simp [get?_modify_self]
  · simp [h, get?_modify_ne _ _ _ _ h]

theorem firstPass_subjectTotalCounts (answers : List (Option Nat)) (st : Stats) (q : Question)
    (i : Nat) :
    (firstPass answers st q i).subjectTotalCounts
      = modify q.category (· + 1)
          (if falsyCount (get? q.category st.subjectCorrectCounts) then
            assign q.category 0 st.subjectTotalCounts else st.subjectTotalCounts) := rfl

theorem firstPass_subjectCorrectCounts (answers : List (Option Nat)) (st : Stats) (q : Question)
    (i : Nat) :
    (firstPass answers st q i).subjectCorrectCounts
      = if isCorrect answers q i then
          modify q.category (· + 1)
            (if falsyCount (get? q.category st.subjectCorrectCounts) then
              assign q.category 0 st.subjectCorrectCounts else st.subjectCorrectCounts)
        else
          (if falsyCount (get? q.category st.subjectCorrectCounts) then
            assign q.category 0 st.subjectCorrectCounts else st.subjectCorrectCounts) := rfl

theorem firstPass_counts_other (answers : List (Option Nat)) (st : Stats) (q : Question)
    (i : Nat) (k : String) (h : k ≠ q.category) :
    get? k (firstPass answers st q i).subjectTotalCounts = get? k st.subjectTotalCounts
      ∧ get? k (firstPass answers st q i).subjectCorrectCounts
          = get? k st.subjectCorrectCounts := by
  rw [firstPass_subjectTotalCounts, firstPass_subjectCorrectCounts]
  constructor
  · rw [get?_modify_ne _ _ _ _ h]
    split
    · exact get?_assign_ne _ _ _ _ h
    · rfl
  · split
    · rw [get?_modify_ne _ _ _ _ h]
      split
      · exact get?_assign_ne _ _ _ _ h
      · rfl
    · split
      · exact get?_assign_ne _ _ _ _ h
      · rfl

theorem firstPass_counted_self (answers : List (Option Nat)) (st : Stats) (q : Question)
    (i : Nat) (hinv : CountsInv st) : SubjectCounted (firstPass answers st q i) q.category := by
  unfold SubjectCounted
  rw [firstPass_subjectTotalCounts, firstPass_subjectCorrectCounts]
  cases hc : get? q.category st.subjectCorrectCounts with
  | none =>
    simp only [falsyCount, if_true]
    constructor
    · exact ⟨1, by simp [get?_modify_self, get?_assign_self], Nat.le_refl 1⟩
    · split <;> simp [get?_modify_self, get?_assign_self]
  | some c =>
    by_cases hc0 : c = 0
    · simp only [falsyCount, hc0, decide_True, if_true]
      constructor
      · exact ⟨1, by simp [get?_modify_self, get?_assign_self], Nat.le_refl 1⟩
      · split <;> simp [get?_modify_self, get?_assign_self]
    · obtain ⟨t, ht, ht1⟩ := hinv q.category (by simp [hc])
      simp only [falsyCount, hc0, decide_False, Bool.false_eq_true, if_false]
      constructor
      · exact ⟨t + 1, by simp [get?_modify_self, ht], by omega⟩
      · split <;> simp [get?_modify_self, hc]

theorem firstPass_counted (answers : List (Option Nat)) (st : Stats) (q : Question)
    (i : Nat) (k : String) (hinv : CountsInv st) (h : SubjectCounted st k) :
    SubjectCounted (firstPass answers st q i) k := by
  by_cases hk : k = q.category
  · subst hk; exact firstPass_counted_self answers st q i hinv
  · obtain ⟨h1, h2⟩ := firstPass_counts_other answers st q i k hk
    unfold SubjectCounted
    rw [h1, h2]
    exact h

theorem firstPass_countsInv (answers : List (Option Nat)) (st : Stats) (q : Question)
    (i : Nat) (hinv : CountsInv st) : CountsInv (firstPass answers st q i) := by
  intro k hk
  by_cases hkc : k = q.category
  · subst hkc; exact (firstPass_counted_self answers st q i hinv).1
  · obtain ⟨h1, h2⟩ := firstPass_counts_other answers st q i k hkc
    rw [h1]
    rw [h2] at hk
    exact hinv k hk

theorem forEach_firstPass_counted (answers : List (Option Nat)) (qs : List Question) (i : Nat)
    (st : Stats) (hinv : CountsInv st) :
    (∀ k, SubjectCounted st k → SubjectCounted (forEachFrom (firstPass answers) qs i st) k)
      ∧ ∀ q ∈ qs, SubjectCounted (forEachFrom (firstPass answers) qs i st) q.category := by
  induction qs generalizing i st with
  | nil => exact ⟨fun _ h => h, fun _ h => by simp at h⟩
  | cons q qs ih =>
    obtain ⟨ih1, ih2⟩ := ih (i + 1) (firstPass answers st q i)
      (firstPass_countsInv answers st q i hinv)
    refine ⟨fun k h => ih1 k (firstPass_counted answers st q i k hinv h), ?_⟩
    intro q' hq'
    rcases List.mem_cons.mp hq' with rfl | hmem
    · exact ih1 _ (firstPass_counted_self answers st q' i hinv)
    · exact ih2 q' hmem

theorem secondPass_counted (answers : List (Option Nat)) (st : Stats) (q : Question)
    (i : Nat) (k : String) (h : SubjectCounted st k) :
    SubjectCounted (secondPass answers st q i) k := by
  obtain ⟨⟨t, ht, ht1⟩, hc⟩ := h
  unfold SubjectCounted secondPass
  cases topicOf q with
  | none => exact ⟨⟨t, ht, ht1⟩, hc⟩
  | some topic =>
    simp only []
    constructor
    · rw [get?_modify, ht]
      split
      · exact ⟨t + 1, rfl, by omega⟩
      · exact ⟨t, rfl, ht1⟩
    · split
      · rw [get?_modify]
        split
        · simpa using hc
        · exact hc
      · exact hc

theorem forEach_secondPass_counted (answers : List (Option Nat)) (qs : List Question) (i : Nat)
    (st : Stats) (k : String) (h : SubjectCounted st k) :
    SubjectCounted (forEachFrom (secondPass answers) qs i st) k := by
  induction qs generalizing i st with
  | nil => exact h
  | cons q qs ih => exact ih (i + 1) _ (secondPass_counted answers st q i k h)

theorem buildStats_counted (qs : List Question) (answers : List (Option Nat)) (q : Question)
    (hq : q ∈ qs) : SubjectCounted (buildStats qs answers) q.category := by
  unfold buildStats
  apply forEach_secondPass_counted
  exact (forEach_firstPass_counted answers qs 0 Stats.empty
    (fun k hk => by simp [Stats.empty, get?] at hk)).2 q hq


/-! ## Lemmas: the subjects and topics listed -/

theorem firstPass_subjectTopicStats (answers : List (Option Nat)) (st : Stats) (q : Question)
    (i : Nat) : (firstPass answers st q i).subjectTopicStats = st.subjectTopicStats := rfl

theorem forEach_firstPass_subjectTopicStats (answers : List (Option Nat)) (qs : List Question)
    (i : Nat) (st : Stats) :
    (forEachFrom (firstPass answers) qs i st).subjectTopicStats = st.subjectTopicStats := by
  induction qs generalizing i st with
  | nil => rfl
  | cons q qs ih => simp [forEachFrom, ih, firstPass_subjectTopicStats]

theorem secondPass_listed (answers : List (Option Nat)) (st : Stats) (q : Question)
    (i : Nat) (k : String) :
    (get? k (secondPass answers st q i).subjectTopicStats).isSome = true
      ↔ (get? k st.subjectTopicStats).isSome = true ∨ q.category = k := by
  unfold secondPass
  by_cases hk : k = q.category
  · subst hk
    cases topicOf q with
    | none =>
      simp only []
      rw [get?_init_self]
      simp
    | some topic => simp [get?_assign_self]
  · have hk' : ¬ q.category = k := fun e => hk e.symm
    cases topicOf q with
    | none =>
      simp only []
      rw [get?_init_ne _ _ _ _ hk]
      simp [hk']
    | some topic =>
      simp only []
      rw [get?_assign_ne _ _ _ _ hk, get?_init_ne _ _ _ _ hk]
      simp [hk']

theorem forEach_secondPass_listed (answers : List (Option Nat)) (qs : List Question) (i : Nat)
    (st : Stats) (k : String) :
    (get? k (forEachFrom (secondPass answers) qs i st).subjectTopicStats).isSome = true
      ↔ (get? k st.subjectTopicStats).isSome = true ∨ ∃ q ∈ qs, q.category = k := by
  induction qs generalizing i st with
  | nil => simp [forEachFrom]
  | cons q qs ih =>
    simp only [forEachFrom]
    rw [ih, secondPass_listed]
    simp only [List.mem_cons, exists_eq_or_imp]
    tauto

theorem buildStats_listed (qs : List Question) (answers : List (Option Nat)) (k : String) :
    k ∈ keys (buildStats qs answers).subjectTopicStats ↔ ∃ q ∈ qs, q.category = k := by
  rw [mem_keys_iff]
  unfold buildStats
  rw [forEach_secondPass_listed, forEach_firstPass_subjectTopicStats]
  simp [Stats.empty, get?]

theorem buildStats_topicEntry (qs : List Question) (answers : List (Option Nat))
    (s t : String) :
    topicEntry (buildStats qs answers) s t
      = if topicTotal qs s t = 0 then none
        else some { correct := topicCorrect qs answers s t, total := topicTotal qs s t } := by
  unfold buildStats
  rw [topicEntry_forEach]
  have h0 : topicEntry (forEachFrom (firstPass answers) qs 0 Stats.empty) s t = none := by
    unfold topicEntry
    rw [forEach_firstPass_subjectTopicStats]
    rfl
  rw [h0]
  have hn := countP_enumFrom_snd
    (fun q => decide (q.category = s ∧ topicOf q = some t)) qs 0
  rw [hn]
  unfold bump topicTotal topicCorrect List.enum
  split <;> simp

/-! ## Lemmas: percentages -/

theorem roundPercent_isSome (c t : Nat) (h : 1 ≤ t) : (roundPercent c t).isSome = true := by
  have : t ≠ 0 := by omega
  simp [roundPercent, this]

theorem buildStats_topic_cell (qs : List Question) (answers : List (Option Nat))
    (s t : String) (topics : List (String × Tally)) (cell : Tally)
    (hs : get? s (buildStats qs answers).subjectTopicStats = some topics)
    (ht : get? t topics = some cell) :
    topicTotal qs s t ≠ 0 ∧ cell.total = topicTotal qs s t
      ∧ cell.correct = topicCorrect qs answers s t := by
  have h := buildStats_topicEntry qs answers s t
  have he : topicEntry (buildStats qs answers) s t = some cell := by
    simp [topicEntry, hs, ht]
  rw [he] at h
  by_cases h0 : topicTotal qs s t = 0
  · simp [h0] at h
  · simp only [h0, if_false, Option.some.injEq] at h
    subst h
    exact ⟨h0, rfl, rfl⟩

/-! ## Lemmas: topic entries -/

/-- The entries of `subjectTopicStats` in terms of the tests `topicOf` and
`isCorrect` that `secondPass` branches on. -/
theorem tested_topic_entries (qs : List Question) (answers : List (Option Nat)) (s t : String) :
    ((topicEntry (buildStats qs answers) s t).isSome = true
        ↔ ∃ q ∈ qs, q.category = s ∧ topicOf q = some t)
      ∧ (∀ cell, topicEntry (buildStats qs answers) s t = some cell →
          cell.total = topicTotal qs s t ∧ cell.correct = topicCorrect qs answers s t)
      ∧ (∀ q ∈ qs, q.category ∈ keys (buildStats qs answers).subjectTopicStats)
      ∧ ((∃ q ∈ qs, q.category = s) → (∀ q ∈ qs, q.category = s → topicOf q = none) →
          get? s (buildStats qs answers).subjectTopicStats = some []) := by
  have hentry := buildStats_topicEntry qs answers s t
  have hpos : topicTotal qs s t ≠ 0 ↔ ∃ q ∈ qs, q.category = s ∧ topicOf q = some t := by
    unfold topicTotal
    rw [← Nat.pos_iff_ne_zero, List.countP_pos_iff]
    simp
  refine ⟨?_, ?_, ?_, ?_⟩
  · rw [hentry, ← hpos]
    by_cases h0 : topicTotal qs s t = 0 <;> simp [h0]
  · intro cell hcell
    rw [hentry] at hcell
    by_cases h0 : topicTotal qs s t = 0
    · simp [h0] at hcell
    · simp only [h0, if_false, Option.some.injEq] at hcell
      subst hcell
      exact ⟨rfl, rfl⟩
  · intro q hq
    exact (buildStats_listed qs answers q.category).mpr ⟨q, hq, rfl⟩
  · intro hex hnone
    obtain ⟨topics, hts⟩ := Option.isSome_iff_exists.mp
      ((mem_keys_iff s _).mp ((buildStats_listed qs answers s).mpr hex))
    rw [hts]
    cases topics with
    | nil => rfl
    | cons p rest =>
      exfalso
      obtain ⟨topic, cell⟩ := p
      have hget : get? topic ((topic, cell) :: rest) = some cell := by simp [get?]
      obtain ⟨h0, _, _⟩ := buildStats_topic_cell qs answers s topic _ cell hts hget
      apply h0
      unfold topicTotal
      rw [List.countP_eq_zero]
      intro q hq
      simp only [decide_eq_true_eq, not_and]
      intro hcat
      rw [hnone q hq hcat]
      simp

/-! ## Lemmas: the tests of the code and the fields of the data -/

theorem topicOf_eq_some_iff (q : Question) (t : String) (ht : t ≠ "") :
    topicOf q = some t ↔ q.topic = some t := by
  unfold topicOf
  cases hq : q.topic with
  | none => simp
  | some u =>
    by_cases hu : u = ""
    · subst hu
      simp only [if_true, reduceCtorEq, Option.some.injEq, false_iff]
      exact fun h => ht h.symm
    · simp [hu]

theorem topicOf_ne_some_empty (q : Question) : topicOf q ≠ some "" := by
  unfold topicOf
  cases q.topic with
  | none => simp
  | some u =>
    by_cases hu : u = ""
    · simp [hu]
    · simp [hu]

theorem topicOf_eq_none_iff (q : Question) :
    topicOf q = none ↔ q.topic = none ∨ q.topic = some "" := by
  unfold topicOf
  cases q.topic with
  | none => simp
  | some u => by_cases hu : u = "" <;> simp [hu]

theorem isCorrect_eq_slot (answers : List (Option Nat)) (q : Question) (i : Nat) :
    isCorrect answers q i = decide (answers[i]? = some (some q.answerIndex)) := by
  unfold isCorrect answerAt
  rw [List.getD_eq_getElem?_getD]
  cases h : answers[i]? with
  | none => simp
  | some a => simp

theorem topicTotal_eq_topicQuestions (qs : List Question) (s t : String) (ht : t ≠ "") :
    topicTotal qs s t = topicQuestions qs s t := by
  unfold topicTotal topicQuestions
  apply List.countP_congr
  intro q _
  simp [topicOf_eq_some_iff q t ht]

theorem topicCorrect_eq_topicQuestionsRight (qs : List Question) (answers : List (Option Nat))
    (s t : String) (ht : t ≠ "") :
    topicCorrect qs answers s t = topicQuestionsRight qs answers s t := by
  unfold topicCorrect topicQuestionsRight
  apply List.countP_congr
  intro iq _
  simp [topicOf_eq_some_iff iq.2 t ht, isCorrect_eq_slot, and_assoc]

theorem topicTotal_empty (qs : List Question) (s : String) : topicTotal qs s "" = 0 := by
  unfold topicTotal
  rw [List.countP_eq_zero]
  intro q _
  simp [topicOf_ne_some_empty q]

/-! ## Theorems -/

/-- C5: for every array `xs` and every sequence of draws with each draw `j` in
`[0, i]`, `shuffle(xs)` is a permutation of `xs`: same length, same multiset of
elements; an empty or one-element `xs` is returned as it is. -/
theorem shuffle_permutation {α : Type} (rand : Nat → Nat) (xs : List α)
    (hdraw : ∀ i, rand i ≤ i) :
    (shuffle rand xs).Perm xs
      ∧ (shuffle rand xs).length = xs.length
      ∧ Multiset.ofList (shuffle rand xs) = Multiset.ofList xs
      ∧ (xs.length ≤ 1 → shuffle rand xs = xs) :=
  ⟨shuffleLoop_perm rand _ xs, shuffle_length rand xs,
    Quotient.sound (shuffleLoop_perm rand _ xs), shuffle_of_length_le_one rand xs⟩

/-- C5, at a concrete input: five elements and the draws `i / 2`. -/
theorem shuffle_permutation_witness :
    (∀ i, (fun i => i / 2) i ≤ i)
      ∧ shuffle (fun i => i / 2) [10, 20, 30, 40, 50] = [50, 10, 40, 20, 30]
      ∧ (shuffle (fun i => i / 2) [10, 20, 30, 40, 50]).Perm [10, 20, 30, 40, 50] :=
  ⟨fun i => Nat.div_le_self i 2, by decide,
    (shuffle_permutation (fun i => i / 2) [10, 20, 30, 40, 50]
      (fun i => Nat.div_le_self i 2)).1⟩

/-- C6: for a non-empty pool and a positive integer question count, the session
built by `setupQuiz` has exactly `min(requestedCount, pool.length)` questions. -/
theorem setupQuiz_length (inp : Inputs) (rand : Nat → Nat) (s : State) (n : Int)
    (hl : s.questionsLoaded = true) (hp : getPoolForSubject s inp.categorySelect ≠ [])
    (hn : inp.numQuestionsInput = JSNumber.int n) (hpos : 0 < n) :
    (setupQuiz inp rand s).quizQuestions.length
      = min n.toNat (getPoolForSubject s inp.categorySelect).length :=
  (setupQuiz_session inp rand s n hl hp hn hpos).1

/-- C6, Scenario A: a pool of 3 and a requested count of 10 give 3 questions. -/
theorem setupQuiz_length_witness :
    sampleLoaded.questionsLoaded = true
      ∧ getPoolForSubject sampleLoaded "Maths" ≠ []
      ∧ (0 : Int) < 10
      ∧ (setupQuiz sampleInputs (fun _ => 0) sampleLoaded).quizQuestions.length = 3 :=
  ⟨rfl, by decide, by decide,
    setupQuiz_length sampleInputs (fun _ => 0) sampleLoaded 10 rfl (by decide) rfl (by decide)⟩

/-- C1: in every state reached from a successful `setupQuiz` by option clicks,
next-button clicks and timer ticks, `score` is the number of indices `i` whose
recorded answer equals `quizQuestions[i].answerIndex`. -/
theorem score_counts_recorded_correct (inp : Inputs) (rand : Nat → Nat) (s : State) (n : Int)
    (events : List Event)
    (hl : s.questionsLoaded = true) (hp : getPoolForSubject s inp.categorySelect ≠ [])
    (hn : inp.numQuestionsInput = JSNumber.int n) (hpos : 0 < n) :
    (run events (setupQuiz inp rand s)).score
      = recordedCorrect (run events (setupQuiz inp rand s)).quizQuestions
          (run events (setupQuiz inp rand s)).answers := by
  obtain ⟨hlen, hci, hsc, hans, _⟩ := setupQuiz_session inp rand s n hl hp hn hpos
  have hpl : 0 < (getPoolForSubject s inp.categorySelect).length :=
    List.length_pos.mpr hp
  have hinit : SessionInv (setupQuiz inp rand s) := by
    refine ⟨by rw [hans, hci]; rfl, ?_, by rw [hsc, hci]; rfl⟩
    intro _
    rw [hci, hlen]
    have : 0 < n.toNat := by omega
    omega
  exact (sessionInv_run events _ hinit).score_eq

/-- C1, at a concrete session: nine events on the sample session, two right answers. -/
theorem score_counts_recorded_correct_witness :
    sampleLoaded.questionsLoaded = true
      ∧ getPoolForSubject sampleLoaded "Maths" ≠ []
      ∧ (0 : Int) < 10
      ∧ (run [.option 1, .next, .next, .option 1, .next, .tick, .option 1, .next, .next]
          sampleSession).score = 2 := by
  refine ⟨rfl, by decide, by decide, ?_⟩
  have h := score_counts_recorded_correct sampleInputs (fun _ => 0) sampleLoaded 10
    [.option 1, .next, .next, .option 1, .next, .tick, .option 1, .next, .next]
    rfl (by decide) rfl (by decide)
  exact h.trans (by decide)


/-- C7 (as stated, refuted): a countdown started with 5 seconds has not expired
after 5 ticks: the timer shows 0 seconds, the session is still running and no
result has been shown. -/
theorem five_ticks_do_not_expire :
    (ticks 5 (startTimer 5 sampleSession)).quizActive = true
      ∧ (ticks 5 (startTimer 5 sampleSession)).timerId ≠ none
      ∧ (ticks 5 (startTimer 5 sampleSession)).timeLeft = 0
      ∧ (ticks 5 (startTimer 5 sampleSession)).resultView = none := by
  decide

/-- C7 (amended): for every `n ≥ 1`, when the clock is started with `n` seconds
and no answer has been submitted, the first `n` ticks only count down; the tick
after them, tick `n + 1`, completes the session by timeout: `quizActive` is
false, the timer is stopped, `showResult` ran with `timeUp = true`, the score
is 0 and every question is reported as not answered and incorrect. -/
theorem timeout_on_tick_after_zero (n : Nat) (s : State) (hn : 1 ≤ n)
    (ha : s.answers = []) (hs : s.score = 0) :
    (∀ k, k ≤ n → ticks k (startTimer n s) = { startTimer n s with timeLeft := (n : Int) - k })
      ∧ (ticks (n + 1) (startTimer n s)).quizActive = false
      ∧ (ticks (n + 1) (startTimer n s)).timerId = none
      ∧ ∃ view, (ticks (n + 1) (startTimer n s)).resultView = some view
          ∧ view.timeUp = true ∧ view.score = 0 ∧ view.total = s.quizQuestions.length
          ∧ view.review.length = s.quizQuestions.length
          ∧ ∀ item ∈ view.review,
              item.isCorrect = false ∧ item.userAnswerText = some "(no answer)" := by
  refine ⟨?_, ?_⟩
  · intro k hk
    exact ticks_countdown k (startTimer n s) (by simp [startTimer])
      (by simp [startTimer]; omega)
  · rw [ticks_expire]
    refine ⟨rfl, rfl, _, rfl, rfl, hs, rfl, ?_, ?_⟩
    · show (buildStats s.quizQuestions s.answers).review.length = _
      rw [buildStats_review]; simp
    · intro item hitem
      have hitem' : item ∈ (buildStats s.quizQuestions s.answers).review := hitem
      rw [buildStats_review, ha, List.mem_map] at hitem'
      obtain ⟨iq, _, rfl⟩ := hitem'
      simp [reviewItem, isCorrect_nil, answerAt]

/-- C7 (amended), Scenario B: started with 5 seconds, the sixth tick ends the session. -/
theorem timeout_on_tick_after_zero_witness :
    (1 ≤ 5 ∧ sampleSession.answers = [] ∧ sampleSession.score = 0)
      ∧ (ticks (5 + 1) (startTimer (5 : Nat) sampleSession)).quizActive = false :=
  ⟨⟨by decide, rfl, rfl⟩,
    (timeout_on_tick_after_zero 5 sampleSession (by decide) rfl rfl).2.1⟩

/-- C8: evaluation at a negative question count.  With a pool of three questions
and the count `-1` the session has two questions, not `min(10, 3) = 3`: the
default is not applied and `slice(0, -1)` drops the last question. -/
theorem setupQuiz_negative_count :
    (getPoolForSubject sampleLoaded sampleNegativeInputs.categorySelect).length = 3
      ∧ sampleNegativeInputs.numQuestionsInput = JSNumber.int (-1)
      ∧ (setupQuiz sampleNegativeInputs (fun _ => 0) sampleLoaded).quizQuestions.length = 2 := by
  decide

/-- C9 (as stated, refuted): with an empty pool `setupQuiz` still overwrites
`currentMode` with the selected mode. -/
theorem empty_pool_overwrites_currentMode :
    getPoolForSubject sampleLoaded sampleEnglishInputs.categorySelect = []
      ∧ sampleLoaded.currentMode = "exam"
      ∧ (setupQuiz sampleEnglishInputs (fun _ => 0) sampleLoaded).currentMode = "practice"
      ∧ (setupQuiz sampleEnglishInputs (fun _ => 0) sampleLoaded).currentMode
          ≠ sampleLoaded.currentMode := by
  decide

/-- C9 (amended): if the pool of the selected subject is empty, `setupQuiz`
starts no session: `quizQuestions`, `currentIndex`, `score`, `answers`,
`quizActive`, `timeLeft` and the timer are the same after the call as before it;
`currentMode` is set to the selected mode once the questions are loaded. -/
theorem setupQuiz_empty_pool (inp : Inputs) (rand : Nat → Nat) (s : State)
    (hp : getPoolForSubject s inp.categorySelect = []) :
    (setupQuiz inp rand s).quizQuestions = s.quizQuestions
      ∧ (setupQuiz inp rand s).currentIndex = s.currentIndex
      ∧ (setupQuiz inp rand s).score = s.score
      ∧ (setupQuiz inp rand s).answers = s.answers
      ∧ (setupQuiz inp rand s).quizActive = s.quizActive
      ∧ (setupQuiz inp rand s).timeLeft = s.timeLeft
      ∧ (setupQuiz inp rand s).timerId = s.timerId
      ∧ (setupQuiz inp rand s).currentMode
          = if s.questionsLoaded = true then inp.modeSelect else s.currentMode := by
  unfold setupQuiz
  cases hl : s.questionsLoaded <;> simp [hp]

/-- C9 (amended), at a concrete input: the empty English pool starts no session. -/
theorem setupQuiz_empty_pool_witness :
    getPoolForSubject sampleLoaded sampleEnglishInputs.categorySelect = []
      ∧ (setupQuiz sampleEnglishInputs (fun _ => 0) sampleLoaded).quizActive = false :=
  ⟨by decide,
    (setupQuiz_empty_pool sampleEnglishInputs (fun _ => 0) sampleLoaded (by decide)).2.2.2.2.1⟩

/-- C10: no percentage of `showResult` divides by zero.  Every subject
enumerated in the summary has a subject total of at least 1 (and a correct
count) when its percentage is computed, every topic enumerated under a subject
has a total of at least 1, and so every percentage shown is a finite number. -/
theorem percentages_have_positive_totals (qs : List Question) (answers : List (Option Nat)) :
    (∀ subject ∈ keys (buildStats qs answers).subjectTopicStats,
        (∃ c t, get? subject (buildStats qs answers).subjectCorrectCounts = some c
          ∧ get? subject (buildStats qs answers).subjectTotalCounts = some t ∧ 1 ≤ t)
        ∧ ∀ topics, get? subject (buildStats qs answers).subjectTopicStats = some topics →
            ∀ topic ∈ keys topics, ∃ cell, get? topic topics = some cell ∧ 1 ≤ cell.total)
      ∧ ∀ block ∈ summaryOf (buildStats qs answers),
          block.subjectPercentage.isSome = true
            ∧ ∀ line ∈ block.topics, 1 ≤ line.total ∧ line.percent.isSome = true := by
  have hsub : ∀ subject ∈ keys (buildStats qs answers).subjectTopicStats,
      (∃ c t, get? subject (buildStats qs answers).subjectCorrectCounts = some c
        ∧ get? subject (buildStats qs answers).subjectTotalCounts = some t ∧ 1 ≤ t)
      ∧ ∀ topics, get? subject (buildStats qs answers).subjectTopicStats = some topics →
          ∀ topic ∈ keys topics, ∃ cell, get? topic topics = some cell ∧ 1 ≤ cell.total := by
    intro subject hsubject
    obtain ⟨q, hq, rfl⟩ := (buildStats_listed qs answers subject).mp hsubject
    obtain ⟨⟨t, ht, ht1⟩, hc⟩ := buildStats_counted qs answers q hq
    obtain ⟨c, hc'⟩ := Option.isSome_iff_exists.mp hc
    refine ⟨⟨c, t, hc', ht, ht1⟩, ?_⟩
    intro topics htopics topic htopic
    obtain ⟨cell, hcell⟩ := Option.isSome_iff_exists.mp ((mem_keys_iff topic topics).mp htopic)
    obtain ⟨h0, htot, _⟩ := buildStats_topic_cell qs answers _ topic topics cell htopics hcell
    exact ⟨cell, hcell, by omega⟩
  refine ⟨hsub, ?_⟩
  intro block hblock
  obtain ⟨subject, hsubject, rfl⟩ := List.mem_map.mp hblock
  obtain ⟨⟨c, t, hc, ht, ht1⟩, htopics⟩ := hsub subject hsubject
  constructor
  · simp only [subjectBlock, hc, ht, roundPercentOf]
    exact roundPercent_isSome c t ht1
  · intro line hline
    obtain ⟨topics, hts⟩ := Option.isSome_iff_exists.mp
      ((mem_keys_iff subject _).mp hsubject)
    simp only [subjectBlock, hts, Option.getD_some] at hline
    obtain ⟨topic, htopic, rfl⟩ := List.mem_map.mp hline
    obtain ⟨cell, hcell, hcell1⟩ := htopics topics hts topic htopic
    simp only [topicLine, hcell, Option.map_some', Option.getD_some]
    exact ⟨hcell1, roundPercent_isSome _ _ hcell1⟩

/-- C4 (as stated, refuted): a session question with category `Maths` whose
`topic` field is present and holds the empty string gets no topic entry: the
subject is listed with no topics. -/
theorem empty_topic_gets_no_entry :
    sampleEmptyTopic.category = "Maths"
      ∧ sampleEmptyTopic.topic = some ""
      ∧ topicEntry (buildStats [sampleEmptyTopic] [some 1]) "Maths" "" = none
      ∧ (buildStats [sampleEmptyTopic] [some 1]).subjectTopicStats = [("Maths", [])] := by
  decide

/-- C4 (amended): for every completed session whose categories and topics are
ordinary keys, every subject `s` and every non-empty topic `t`: the nested
aggregate `subjectTopicStats` has an entry for `(s, t)` exactly when some session
question has category `s` and topic field `t`; its total is then the number of
such questions and its correct count the number of those whose recorded answer
equals `answerIndex` (an unanswered question counts as incorrect).  The empty
topic never has an entry; every question's subject is listed, and a subject
whose questions all have no topic or the empty topic is listed with no topic
entry. -/
theorem topic_breakdown (qs : List Question) (answers : List (Option Nat)) (s t : String)
    (hkeys : ordinaryKeys qs = true) (ht : t ≠ "") :
    ((topicEntry (buildStats qs answers) s t).isSome = true
        ↔ ∃ q ∈ qs, q.category = s ∧ q.topic = some t)
      ∧ (∀ cell, topicEntry (buildStats qs answers) s t = some cell →
          cell.total = topicQuestions qs s t
            ∧ cell.correct = topicQuestionsRight qs answers s t)
      ∧ topicEntry (buildStats qs answers) s "" = none
      ∧ (∀ q ∈ qs, q.category ∈ keys (buildStats qs answers).subjectTopicStats)
      ∧ ((∃ q ∈ qs, q.category = s) →
          (∀ q ∈ qs, q.category = s → q.topic = none ∨ q.topic = some "") →
          get? s (buildStats qs answers).subjectTopicStats = some []) := by
  obtain ⟨h1, h2, h3, h4⟩ := tested_topic_entries qs answers s t
  refine ⟨?_, ?_, ?_, h3, ?_⟩
  · rw [h1]
    constructor
    · rintro ⟨q, hq, hc, htop⟩
      exact ⟨q, hq, hc, (topicOf_eq_some_iff q t ht).mp htop⟩
    · rintro ⟨q, hq, hc, htop⟩
      exact ⟨q, hq, hc, (topicOf_eq_some_iff q t ht).mpr htop⟩
  · intro cell hcell
    obtain ⟨ha, hb⟩ := h2 cell hcell
    rw [ha, hb, topicTotal_eq_topicQuestions qs s t ht,
      topicCorrect_eq_topicQuestionsRight qs answers s t ht]
    exact ⟨rfl, rfl⟩
  · rw [buildStats_topicEntry, topicTotal_empty]
    rfl
  · intro hex hnone
    exact h4 hex (fun q hq hc => (topicOf_eq_none_iff q).mpr (hnone q hq hc))

/-- C4 (amended), Scenarios C and D: `sampleFractions` (Maths, topic `fractions`,
answered with its `answerIndex` 1) gives the entry 1 of 1; `sampleSum` has no
topic, adds to no topic entry and its subject is listed. -/
theorem topic_breakdown_witness :
    (ordinaryKeys [sampleFractions, sampleSum] = true ∧ "fractions" ≠ "")
      ∧ topicEntry (buildStats [sampleFractions, sampleSum] [some 1, some 1]) "Maths" "fractions"
          = some { correct := 1, total := 1 }
      ∧ (buildStats [sampleFractions, sampleSum] [some 1, some 1]).subjectTopicStats
          = [("Maths", [("fractions", { correct := 1, total := 1 })])]
      ∧ (buildStats [sampleSum] [some 0]).subjectTopicStats = [("Maths", [])]
      ∧ ((topicEntry (buildStats [sampleFractions, sampleSum] [some 1, some 1])
            "Maths" "fractions").isSome = true
          ↔ ∃ q ∈ [sampleFractions, sampleSum], q.category = "Maths"
              ∧ q.topic = some "fractions") :=
  ⟨⟨by decide, by decide⟩, by decide, by decide, by decide,
    (topic_breakdown [sampleFractions, sampleSum] [some 1, some 1] "Maths" "fractions"
      (by decide) (by decide)).1⟩

/-- C2: evaluation at a finished session with two Maths questions, the first
(with a topic) answered correctly and the second (without a topic) answered
wrongly.  One of two Maths questions is right, so the percentage is
`round(100 * 1 / 2) = 50`; the summary shows 67, computed from the counters
2 and 3. -/
theorem subject_percentage_counts_topic_question_twice :
    sampleFinished.quizQuestions = [sampleFractions, sampleSum]
      ∧ sampleFinished.answers = [some 1, some 1]
      ∧ subjectCorrect sampleFinished.quizQuestions sampleFinished.answers "Maths" = 1
      ∧ subjectTotal sampleFinished.quizQuestions "Maths" = 2
      ∧ roundPercent 1 2 = some 50
      ∧ sampleFinished.resultView.map
          (fun view => view.summary.map fun block => (block.subject, block.subjectPercentage))
          = some [("Maths", some 67)] := by
  decide

/-- C3: evaluation at the same finished session of two questions with score 1.
The subject totals used for the report sum to 3, not to the 2 questions, and
the subject correct counts sum to 2, not to the score 1. -/
theorem subject_counters_do_not_sum_to_session :
    sampleFinished.quizActive = false
      ∧ sampleFinished.quizQuestions.length = 2
      ∧ sampleFinished.score = 1
      ∧ sumValues (buildStats sampleFinished.quizQuestions
          sampleFinished.answers).subjectTotalCounts = 3
      ∧ sumValues (buildStats sampleFinished.quizQuestions
          sampleFinished.answers).subjectCorrectCounts = 2 := by
  decide

/-- The second defect of the subject counters: the test
`!subjectCorrectCounts[q.category]` holds again while the correct count is 0,
so both counters are reset.  Two Maths questions without a topic, the first
answered wrongly and the second correctly, give the counters 1 of 1 (100%),
not 1 of 2. -/
theorem subject_counters_reset_while_zero :
    (buildStats [sampleSum, sampleProduct] [some 1, some 1]).subjectTotalCounts = [("Maths", 1)]
      ∧ (buildStats [sampleSum, sampleProduct] [some 1, some 1]).subjectCorrectCounts
          = [("Maths", 1)]
      ∧ (buildStats [sampleSum, sampleProduct] [some 1, some 1]).categoryStats
          = [("Maths", { correct := 1, total := 2 })] := by
  decide

end QuizApp
